import Mathlib

/-!
Shallow embedding of `src/nicos-sandbox-helper.c` (NICOS simulation sandbox
helper).  The helper's `main` is a strictly linear sequence of privileged
system calls; we model each call as an `Event` recorded in a trace, with a
`SysEnv` oracle deciding the success or failure of every call, and the
process outcome (`exit` with a diagnostic, or successful `execvp`
replacement) as an `Outcome`.
-/

namespace NicosSandbox

/-! Mount flag constants from `<sys/mount.h>` / `<linux/fs.h>`. -/

def MS_RDONLY : Nat := 1

def MS_NOSUID : Nat := 2

def MS_NODEV : Nat := 4

def MS_NOEXEC : Nat := 8

def MS_REMOUNT : Nat := 32

def MS_NOATIME : Nat := 1024

def MS_NODIRATIME : Nat := 2048

def MS_BIND : Nat := 4096

def MS_REC : Nat := 16384

def MS_PRIVATE : Nat := 262144

def MS_RELATIME : Nat := 2097152

/-! Errno constants from `<errno.h>` (asm-generic values). -/

def EPERM : Nat := 1

def EACCES : Nat := 13

def EINVAL : Nat := 22

def ESTALE : Nat := 116

/-- One record of the mount-table snapshot read from `/proc/self/mounts`
(`struct mntent`): mount directory, filesystem type, and the mount options
as the list of comma-separated tokens of `mnt_opts`. -/
structure Mntent where
  mnt_dir : String
  mnt_type : String
  mnt_opts : List String
deriving DecidableEq

/-- Leading-substring test on character lists: `leadsWith p s` holds when
`p` is an initial segment of `s`.  (`strstr(s, p) == s` in the source.) -/
def leadsWith : List Char → List Char → Bool
  | [], _ => true
  | _ :: _, [] => false
  | p :: ps, c :: cs => p == c && leadsWith ps cs

/-- `strStartsWith s p`: the string `s` starts with the string `p`. -/
def strStartsWith (s p : String) : Bool := leadsWith p.data s.data

/-- Embedding of glibc `hasmntopt(ent, opt)`: the option list contains a
token equal to `opt`, or of the form `opt=value`. -/
def hasmntopt (ent : Mntent) (opt : String) : Bool :=
  ent.mnt_opts.any (fun t => t == opt || strStartsWith t (opt ++ "="))

/-- The flag computation of `make_mounts_readonly` (source lines 91-105):
start from `MS_BIND | MS_REMOUNT | MS_RDONLY` and re-assert each of the six
preserved options that is present on the entry. -/
def mkflags (ent : Mntent) : Nat :=
  let flags := MS_BIND ||| MS_REMOUNT ||| MS_RDONLY
  let flags := if hasmntopt ent "nodev" then flags ||| MS_NODEV else flags
  let flags := if hasmntopt ent "noexec" then flags ||| MS_NOEXEC else flags
  let flags := if hasmntopt ent "nosuid" then flags ||| MS_NOSUID else flags
  let flags := if hasmntopt ent "noatime" then flags ||| MS_NOATIME else flags
  let flags := if hasmntopt ent "nodiratime" then flags ||| MS_NODIRATIME else flags
  if hasmntopt ent "relatime" then flags ||| MS_RELATIME else flags

/-- C `isspace` for the default locale, as consulted by `strtol`. -/
def isspace (c : Char) : Bool :=
  c = ' ' || c = '\t' || c = '\n' || c = '\x0b' || c = '\x0c' || c = '\r'

/-- Digit-consuming phase of `strtol`: consume leading decimal digits of
`t`; with no digit consumed the end pointer is the original argument
`orig`, otherwise it points past the last digit. -/
def strtolDigits (orig t : List Char) (neg : Bool) : Int × List Char :=
  let ds := t.takeWhile Char.isDigit
  if ds.isEmpty then (0, orig)
  else
    let v : Int := Int.ofNat (ds.foldl (fun a c => a * 10 + (c.toNat - 48)) 0)
    (if neg then -v else v, t.dropWhile Char.isDigit)

/-- Embedding of `strtol(s, &ptr, 10)` on the character list of `s`:
skip leading whitespace, then an optional sign, then decimal digits;
returns the value and the final end pointer (as the remaining suffix). -/
def strtol (s : List Char) : Int × List Char :=
  let s1 := s.dropWhile isspace
  match s1 with
  | '-' :: t => strtolDigits s t true
  | '+' :: t => strtolDigits s t false
  | _ => strtolDigits s s1 false

/-- The id-validation test of `main` (source lines 152 and 158):
`*arg == '\0' || *ptr != '\0'` after `strtol(arg, &ptr, 10)`. `true`
means the argument is rejected with the `invalid numeric ... id`
diagnostic. -/
def badId (s : String) : Bool :=
  s.data.isEmpty || !(strtol s.data).2.isEmpty

/-- One attempted system call of the helper, recorded in program order. -/
inductive Event where
  | unshare
  | mountPrivate
  | bindMount (target : String)
  | openMounts
  | remount (dir : String) (flags : Nat)
  | chdir (dir : String)
  | chroot (dir : String)
  | setgid (gid : Int)
  | setuid (uid : Int)
  | exec (binary : String)
deriving DecidableEq

/-- How the helper process ends: `exited code msg` for `err`/`errx`
termination with a diagnostic, `execed b` for successful replacement by
the target binary (after which this program no longer runs). -/
inductive Outcome where
  | exited (code : Nat) (msg : String)
  | execed (binary : String)
deriving DecidableEq

/-- Oracle for the success or failure of every system call the helper
makes.  `remountRes ent = none` means the remount of `ent` succeeds,
`some e` that it fails with errno `e`.  `mounts` is the `/proc/self/mounts`
snapshot enumerated by `getmntent`. -/
structure SysEnv where
  unshare_ok : Bool
  mount_private_ok : Bool
  bind_ok : Bool
  setmntent_ok : Bool
  mounts : List Mntent
  remountRes : Mntent → Option Nat
  chdir_ok : Bool
  chroot_ok : Bool
  setgid_ok : Bool
  setuid_ok : Bool
  exec_ok : Bool

/-! Diagnostic messages, from the `err`/`errx` format strings of the
source (the strerror suffix appended by `err` is left off). -/

def msgUsage (arg0 : String) : String :=
  "usage: " ++ arg0 ++ " rootdir uid gid binary [args...]"

def msgUnshare : String :=
  "could not create namespaces (is the binary setuid root?)"

def msgPrivate : String := "could not make mounts private"

def msgBind (d : String) : String := "could not create bind mount at " ++ d

def msgMntList : String := "could not get list of mountpoints"

def msgRoFail (d : String) : String :=
  "could not set mountpoint " ++ d ++ " read-only"

def msgChdir : String := "could not chdir into new root"

def msgChroot : String := "could not create chroot jail"

def msgBadGid (s : String) : String :=
  "invalid numeric group id '" ++ s ++ "' given"

def msgSetgid (i : Int) : String := "could not set new group id " ++ toString i

def msgBadUid (s : String) : String :=
  "invalid numeric user id '" ++ s ++ "' given"

def msgSetuid (i : Int) : String := "could not set new user id " ++ toString i

def msgExec : String := "could not exec new process"

/-- Embedding of `make_mounts_readonly` (source lines 70-115), given the
prefix (`argv[1]`), the remount oracle and the mount-table snapshot.
Returns the trace of attempted remounts and `some msg` when a remount
failure outside the tolerated errno set aborts the process (else `none`).
The skip test `strstr(ent->mnt_dir, pfx) != ent->mnt_dir` holds exactly
when `pfx` is not a leading substring of `mnt_dir`. -/
def make_mounts_readonly (pfx : String) (res : Mntent → Option Nat) :
    List Mntent → List Event × Option String
  | [] => ([], none)
  | ent :: rest =>
    if !(strStartsWith ent.mnt_dir pfx) then make_mounts_readonly pfx res rest
    else if ent.mnt_type == "tmpfs" then make_mounts_readonly pfx res rest
    else
      let ev := Event.remount ent.mnt_dir (mkflags ent)
      match res ent with
      | none =>
        let r := make_mounts_readonly pfx res rest
        (ev :: r.1, r.2)
      | some e =>
        if e != EACCES && e != EINVAL && e != ESTALE && e != EPERM then
          ([ev], some (msgRoFail ent.mnt_dir))
        else
          let r := make_mounts_readonly pfx res rest
          (ev :: r.1, r.2)

/-- Embedding of `main` (source lines 117-169).  `argv` includes the
program name at position 0; the C code requires `argc >= 5`.  Every
attempted system call is recorded in the returned trace, in program
order, whether it succeeds or fails. -/
def main (argv : List String) (env : SysEnv) : List Event × Outcome :=
  match argv with
  | _arg0 :: rootdir :: uidArg :: gidArg :: binary :: _rest =>
    if env.unshare_ok = false then
      ([Event.unshare], Outcome.exited 1 msgUnshare)
    else if env.mount_private_ok = false then
      ([Event.unshare, Event.mountPrivate], Outcome.exited 1 msgPrivate)
    else if env.bind_ok = false then
      ([Event.unshare, Event.mountPrivate, Event.bindMount rootdir],
        Outcome.exited 1 (msgBind rootdir))
    else if env.setmntent_ok = false then
      ([Event.unshare, Event.mountPrivate, Event.bindMount rootdir,
        Event.openMounts], Outcome.exited 1 msgMntList)
    else
      let pass := make_mounts_readonly rootdir env.remountRes env.mounts
      let t4 := [Event.unshare, Event.mountPrivate, Event.bindMount rootdir,
        Event.openMounts] ++ pass.1
      match pass.2 with
      | some m => (t4, Outcome.exited 1 m)
      | none =>
        if env.chdir_ok = false then
          (t4 ++ [Event.chdir rootdir], Outcome.exited 1 msgChdir)
        else if env.chroot_ok = false then
          (t4 ++ [Event.chdir rootdir, Event.chroot rootdir],
            Outcome.exited 1 msgChroot)
        else if badId gidArg then
          (t4 ++ [Event.chdir rootdir, Event.chroot rootdir],
            Outcome.exited 1 (msgBadGid gidArg))
        else
          let gid := (strtol gidArg.data).1
          if env.setgid_ok = false then
            (t4 ++ [Event.chdir rootdir, Event.chroot rootdir,
              Event.setgid gid], Outcome.exited 1 (msgSetgid gid))
          else if badId uidArg then
            (t4 ++ [Event.chdir rootdir, Event.chroot rootdir,
              Event.setgid gid], Outcome.exited 1 (msgBadUid gidArg))
          else
            let uid := (strtol uidArg.data).1
            if env.setuid_ok = false then
              (t4 ++ [Event.chdir rootdir, Event.chroot rootdir,
                Event.setgid gid, Event.setuid uid],
                Outcome.exited 1 (msgSetuid uid))
            else if env.exec_ok = false then
              (t4 ++ [Event.chdir rootdir, Event.chroot rootdir,
                Event.setgid gid, Event.setuid uid, Event.exec binary],
                Outcome.exited 1 msgExec)
            else
              (t4 ++ [Event.chdir rootdir, Event.chroot rootdir,
                Event.setgid gid, Event.setuid uid, Event.exec binary],
                Outcome.execed binary)
  | other => ([], Outcome.exited 1 (msgUsage (other.headD "")))

/-- Environment in which every system call succeeds and the mount table
is empty; used for concrete evaluations. -/
def envAllOk : SysEnv :=
  { unshare_ok := true, mount_private_ok := true, bind_ok := true,
    setmntent_ok := true, mounts := [], remountRes := fun _ => none,
    chdir_ok := true, chroot_ok := true, setgid_ok := true,
    setuid_ok := true, exec_ok := true }

/-! Derived notions used to state the claims. -/

/-- The mount-point paths of the remount events of a trace, in order. -/
def remountDirs : List Event → List String
  | [] => []
  | Event.remount d _ :: r => d :: remountDirs r
  | _ :: r => remountDirs r

/-- Position of an event's system call in the linear program order of the
helper's source. -/
def stageRank : Event → Nat
  | .unshare => 0
  | .mountPrivate => 1
  | .bindMount _ => 2
  | .openMounts => 3
  | .remount _ _ => 4
  | .chdir _ => 5
  | .chroot _ => 6
  | .setgid _ => 7
  | .setuid _ => 8
  | .exec _ => 9

/-- Trace ordering invariant: stages appear in nondecreasing rank order,
and the only stage that may repeat is the remount stage (rank 4). -/
def stageLE (a b : Event) : Prop :=
  stageRank a ≤ stageRank b ∧ (stageRank a = stageRank b → stageRank a = 4)

/-- Rank of an event within the privilege-drop sequence of source lines
143-165 (`chdir`, `chroot`, `setgid`, `setuid`, `execvp`); `none` for
events outside that sequence. -/
def privRank : Event → Option Nat
  | .chdir _ => some 0
  | .chroot _ => some 1
  | .setgid _ => some 2
  | .setuid _ => some 3
  | .exec _ => some 4
  | _ => none

/-- Rank of an event within the sandbox-construction sequence of source
lines 127-140 (`unshare`, make-private, recursive bind mount, read-only
remount pass); `none` for events outside that sequence. -/
def setupRank : Event → Option Nat
  | .unshare => some 0
  | .mountPrivate => some 1
  | .bindMount _ => some 2
  | .remount _ _ => some 3
  | _ => none

/-- An outcome the helper is allowed to have: either it was replaced by
the target binary, or it exited with a non-zero status and a non-empty
diagnostic. -/
def okOutcome : Outcome → Prop
  | .exited c m => c ≠ 0 ∧ m ≠ ""
  | .execed _ => True

/-- Modelled from the spec: the strings `strtol` consumes completely, as
the spec's amended acceptance condition for uid/gid arguments — optional
leading whitespace, an optional single sign, then one or more decimal
digits and nothing else. -/
def strtolAccepts (s : List Char) : Bool :=
  let t := s.dropWhile isspace
  let t2 := if t.head? = some '-' || t.head? = some '+' then t.tail else t
  !t2.isEmpty && t2.all Char.isDigit

/-! Helper lemmas. -/

theorem appendNeEmpty (s t : String) (h : s ≠ "") : s ++ t ≠ "" := by
  intro h0
  apply h
  have hd := congrArg String.data h0
  rw [String.data_append] at hd
  have := List.append_eq_nil.mp hd
  apply String.ext
  rw [this.1]

theorem mmr_trace_rank (pfx : String) (res : Mntent → Option Nat) :
    ∀ ents : List Mntent, ∀ e ∈ (make_mounts_readonly pfx res ents).1,
      stageRank e = 4 := by
  intro ents
  induction ents with
  | nil => intro e he; simp [make_mounts_readonly] at he
  | cons ent rest ih =>
    intro e he
    simp only [make_mounts_readonly] at he
    split at he
    · exact ih e he
    · split at he
      · exact ih e he
      · split at he
        · rcases List.mem_cons.mp he with h | h
          · subst h; rfl
          · exact ih e h
        · split at he
          · rcases List.mem_cons.mp he with h | h
            · subst h; rfl
            · simp at h
          · rcases List.mem_cons.mp he with h | h
            · subst h; rfl
            · exact ih e h

theorem mmr_fatal_ne_empty (pfx : String) (res : Mntent → Option Nat) :
    ∀ (ents : List Mntent) (m : String),
      (make_mounts_readonly pfx res ents).2 = some m → m ≠ "" := by
  intro ents
  induction ents with
  | nil => intro m hm; simp [make_mounts_readonly] at hm
  | cons ent rest ih =>
    intro m hm
    simp only [make_mounts_readonly] at hm
    split at hm
    · exact ih m hm
    · split at hm
      · exact ih m hm
      · split at hm
        · exact ih m hm
        · split at hm
          · simp only [Option.some.injEq] at hm
            subst hm
            exact appendNeEmpty _ _ (appendNeEmpty _ _ (by decide))
          · exact ih m hm

theorem pairwise_stageLE_of_rank4 (l : List Event)
    (h : ∀ e ∈ l, stageRank e = 4) : l.Pairwise stageLE := by
  induction l with
  | nil => exact List.Pairwise.nil
  | cons a t ih =>
    refine List.Pairwise.cons ?_ (ih ?_)
    · intro b hb
      have ha := h a (by simp)
      have hb4 := h b (by simp [hb])
      exact ⟨by omega, fun _ => ha⟩
    · intro e he
      exact h e (by simp [he])

theorem pairwise_sandwich (r : String) (mtr sfx : List Event)
    (hm : ∀ e ∈ mtr, stageRank e = 4)
    (hs : sfx.Pairwise stageLE)
    (hsuf : ∀ e ∈ sfx, 5 ≤ stageRank e) :
    (([Event.unshare, Event.mountPrivate, Event.bindMount r,
        Event.openMounts] ++ mtr) ++ sfx).Pairwise stageLE := by
  have hc4 : ∀ e ∈ [Event.unshare, Event.mountPrivate, Event.bindMount r,
      Event.openMounts], stageRank e ≤ 3 := by
    intro e he
    rcases List.mem_cons.mp he with h | he
    · subst h; simp [stageRank]
    rcases List.mem_cons.mp he with h | he
    · subst h; simp [stageRank]
    rcases List.mem_cons.mp he with h | he
    · subst h; simp [stageRank]
    rcases List.mem_cons.mp he with h | he
    · subst h; simp [stageRank]
    · simp at he
  rw [List.pairwise_append]
  refine ⟨?_, hs, ?_⟩
  · rw [List.pairwise_append]
    refine ⟨?_, pairwise_stageLE_of_rank4 mtr hm, ?_⟩
    · simp [List.pairwise_cons, stageLE, stageRank]
    · intro a ha b hb
      have hb4 := hm b hb
      have ha3 := hc4 a ha
      exact ⟨by omega, fun hh => by omega⟩
  · intro a ha b hb
    have hb5 := hsuf b hb
    have ha4 : stageRank a ≤ 4 := by
      rcases List.mem_append.mp ha with h | h
      · have := hc4 a h; omega
      · have := hm a h; omega
    exact ⟨by omega, fun hh => by omega⟩

theorem pairwise_setup (r : String) (mtr : List Event)
    (hm : ∀ e ∈ mtr, stageRank e = 4) :
    ([Event.unshare, Event.mountPrivate, Event.bindMount r,
        Event.openMounts] ++ mtr).Pairwise stageLE := by
  rw [List.pairwise_append]
  refine ⟨by simp [List.pairwise_cons, stageLE, stageRank],
    pairwise_stageLE_of_rank4 mtr hm, ?_⟩
  intro a ha b hb
  have hb4 := hm b hb
  have ha3 : stageRank a ≤ 3 := by
    simp only [List.mem_cons, List.not_mem_nil, or_false] at ha
    rcases ha with h | h | h | h <;> subst h <;> simp [stageRank]
  exact ⟨by omega, fun hh => by omega⟩

theorem main_trace_sorted (argv : List String) (env : SysEnv) :
    (main argv env).1.Pairwise stageLE := by
  match argv with
  | a0 :: rootdir :: uidArg :: gidArg :: binary :: rest =>
    simp only [main]
    rcases Bool.eq_false_or_eq_true env.unshare_ok with h1 | h1
    case inr =>
      rw [if_pos h1]
      simp [List.pairwise_cons, stageLE, stageRank]
    rw [if_neg (by simp [h1])]
    rcases Bool.eq_false_or_eq_true env.mount_private_ok with h2 | h2
    case inr =>
      rw [if_pos h2]
      simp [List.pairwise_cons, stageLE, stageRank]
    rw [if_neg (by simp [h2])]
    rcases Bool.eq_false_or_eq_true env.bind_ok with h3 | h3
    case inr =>
      rw [if_pos h3]
      simp [List.pairwise_cons, stageLE, stageRank]
    rw [if_neg (by simp [h3])]
    rcases Bool.eq_false_or_eq_true env.setmntent_ok with h4 | h4
    case inr =>
      rw [if_pos h4]
      simp [List.pairwise_cons, stageLE, stageRank]
    rw [if_neg (by simp [h4])]
    have hrank := mmr_trace_rank rootdir env.remountRes env.mounts
    cases hpass : (make_mounts_readonly rootdir env.remountRes env.mounts).2 with
    | some m =>
      simp only [hpass]
      exact pairwise_setup rootdir _ hrank
    | none =>
      simp only [hpass]
      rcases Bool.eq_false_or_eq_true env.chdir_ok with h5 | h5
      case inr =>
        rw [if_pos h5]
        exact pairwise_sandwich rootdir _ _ hrank
          (by simp [List.pairwise_cons, stageLE, stageRank])
          (by simp [List.forall_mem_cons, stageRank])
      rw [if_neg (by simp [h5])]
      rcases Bool.eq_false_or_eq_true env.chroot_ok with h6 | h6
      case inr =>
        rw [if_pos h6]
        exact pairwise_sandwich rootdir _ _ hrank
          (by simp [List.pairwise_cons, stageLE, stageRank])
          (by simp [List.forall_mem_cons, stageRank])
      rw [if_neg (by simp [h6])]
      rcases Bool.eq_false_or_eq_true (badId gidArg) with hg | hg
      case inl =>
        rw [if_pos hg]
        exact pairwise_sandwich rootdir _ _ hrank
          (by simp [List.pairwise_cons, stageLE, stageRank])
          (by simp [List.forall_mem_cons, stageRank])
      rw [if_neg (by simp [hg])]
      rcases Bool.eq_false_or_eq_true env.setgid_ok with h7 | h7
      case inr =>
        rw [if_pos h7]
        exact pairwise_sandwich rootdir _ _ hrank
          (by simp [List.pairwise_cons, stageLE, stageRank])
          (by simp [List.forall_mem_cons, stageRank])
      rw [if_neg (by simp [h7])]
      rcases Bool.eq_false_or_eq_true (badId uidArg) with hu | hu
      case inl =>
        rw [if_pos hu]
        exact pairwise_sandwich rootdir _ _ hrank
          (by simp [List.pairwise_cons, stageLE, stageRank])
          (by simp [List.forall_mem_cons, stageRank])
      rw [if_neg (by simp [hu])]
      rcases Bool.eq_false_or_eq_true env.setuid_ok with h8 | h8
      case inr =>
        rw [if_pos h8]
        exact pairwise_sandwich rootdir _ _ hrank
          (by simp [List.pairwise_cons, stageLE, stageRank])
          (by simp [List.forall_mem_cons, stageRank])
      rw [if_neg (by simp [h8])]
      rcases Bool.eq_false_or_eq_true env.exec_ok with h9 | h9
      case inr =>
        rw [if_pos h9]
        exact pairwise_sandwich rootdir _ _ hrank
          (by simp [List.pairwise_cons, stageLE, stageRank])
          (by simp [List.forall_mem_cons, stageRank])
      rw [if_neg (by simp [h9])]
      exact pairwise_sandwich rootdir _ _ hrank
        (by simp [List.pairwise_cons, stageLE, stageRank])
        (by simp [List.forall_mem_cons, stageRank])
  | [] => exact List.Pairwise.nil
  | [a] => exact List.Pairwise.nil
  | [a, b] => exact List.Pairwise.nil
  | [a, b, c] => exact List.Pairwise.nil
  | [a, b, c, d] => exact List.Pairwise.nil

theorem priv_stage (e : Event) (r : Nat) (h : privRank e = some r) :
    stageRank e = r + 5 := by
  cases e <;> simp [privRank] at h <;> simp [stageRank, ← h]

theorem setup_stage (e : Event) (r : Nat) (h : setupRank e = some r) :
    stageRank e = (if r = 3 then 4 else r) ∧ r ≤ 3 := by
  cases e <;> simp [setupRank] at h <;> simp [stageRank, ← h]

/-- C1: in every run, the privilege-drop operations `chdir`, `chroot`,
`setgid`, `setuid`, `execvp` occur in the trace in strictly this order:
whenever two of them occur at positions `i < j`, the rank of the earlier
one in that canonical sequence is strictly smaller. In particular the
group id is always changed strictly before the user id, and chroot
precedes both identity changes. -/
theorem priv_drop_order (argv : List String) (env : SysEnv)
    (i j : Fin (main argv env).1.length) (hij : i < j) (ri rj : Nat)
    (hi : privRank ((main argv env).1.get i) = some ri)
    (hj : privRank ((main argv env).1.get j) = some rj) :
    ri < rj := by
  have hp := main_trace_sorted argv env
  obtain ⟨hle, heq⟩ := List.pairwise_iff_get.mp hp i j hij
  have hsi := priv_stage _ _ hi
  have hsj := priv_stage _ _ hj
  by_cases hr : ri = rj
  · exfalso
    have h4 := heq (by omega)
    omega
  · omega

theorem priv_drop_order_witness : (0 : Nat) < 1 :=
  priv_drop_order ["h", "/d", "1000", "1000", "/bin/sh"] envAllOk
    ⟨4, by decide⟩ ⟨5, by decide⟩ (by decide) 0 1 (by decide) (by decide)

/-- C2: in every run, the sandbox-construction operations occur in the
strict order namespace `unshare`, then recursive make-private, then the
recursive bind mount, then the remounts of the read-only pass: whenever
two of them occur at positions `i < j`, their ranks in that canonical
sequence are nondecreasing, with equality only between two remounts of
the read-only pass.  Hence no mount operation ever precedes the unshare,
and make-private always precedes the bind mount. -/
theorem sandbox_setup_order (argv : List String) (env : SysEnv)
    (i j : Fin (main argv env).1.length) (hij : i < j) (ri rj : Nat)
    (hi : setupRank ((main argv env).1.get i) = some ri)
    (hj : setupRank ((main argv env).1.get j) = some rj) :
    ri ≤ rj ∧ (ri = rj → ri = 3) := by
  have hp := main_trace_sorted argv env
  obtain ⟨hle, heq⟩ := List.pairwise_iff_get.mp hp i j hij
  obtain ⟨hfi, hbi⟩ := setup_stage _ _ hi
  obtain ⟨hfj, hbj⟩ := setup_stage _ _ hj
  rw [hfi, hfj] at hle
  rw [hfi, hfj] at heq
  constructor
  · split_ifs at hle with ha hb <;> omega
  · intro hrr
    subst hrr
    have h4 := heq rfl
    split_ifs at h4 with ha
    · exact ha
    · omega

theorem sandbox_setup_order_witness :
    (0 : Nat) ≤ 1 ∧ ((0 : Nat) = 1 → (0 : Nat) = 3) :=
  sandbox_setup_order ["h", "/d", "1000", "1000", "/bin/sh"] envAllOk
    ⟨0, by decide⟩ ⟨1, by decide⟩ (by decide) 0 1 (by decide) (by decide)

/-- C9: the helper never terminates with exit status zero under its own
control: every exit outcome carries a non-zero status and a non-empty
diagnostic, and the only non-exit outcome is the successful replacement
by the target binary. -/
theorem no_zero_exit (argv : List String) (env : SysEnv) :
    okOutcome (main argv env).2 := by
  match argv with
  | a0 :: rootdir :: uidArg :: gidArg :: binary :: rest =>
    simp only [main]
    rcases Bool.eq_false_or_eq_true env.unshare_ok with h1 | h1
    case inr =>
      rw [if_pos h1]
      exact ⟨by decide, by decide⟩
    rw [if_neg (by simp [h1])]
    rcases Bool.eq_false_or_eq_true env.mount_private_ok with h2 | h2
    case inr =>
      rw [if_pos h2]
      exact ⟨by decide, by decide⟩
    rw [if_neg (by simp [h2])]
    rcases Bool.eq_false_or_eq_true env.bind_ok with h3 | h3
    case inr =>
      rw [if_pos h3]
      exact ⟨by decide, appendNeEmpty _ _ (by decide)⟩
    rw [if_neg (by simp [h3])]
    rcases Bool.eq_false_or_eq_true env.setmntent_ok with h4 | h4
    case inr =>
      rw [if_pos h4]
      exact ⟨by decide, by decide⟩
    rw [if_neg (by simp [h4])]
    cases hpass : (make_mounts_readonly rootdir env.remountRes env.mounts).2 with
    | some m =>
      simp only [hpass]
      exact ⟨by decide, mmr_fatal_ne_empty rootdir env.remountRes env.mounts m hpass⟩
    | none =>
      simp only [hpass]
      rcases Bool.eq_false_or_eq_true env.chdir_ok with h5 | h5
      case inr =>
        rw [if_pos h5]
        exact ⟨by decide, by decide⟩
      rw [if_neg (by simp [h5])]
      rcases Bool.eq_false_or_eq_true env.chroot_ok with h6 | h6
      case inr =>
        rw [if_pos h6]
        exact ⟨by decide, by decide⟩
      rw [if_neg (by simp [h6])]
      rcases Bool.eq_false_or_eq_true (badId gidArg) with hg | hg
      case inl =>
        rw [if_pos hg]
        exact ⟨by decide, appendNeEmpty _ _ (appendNeEmpty _ _ (by decide))⟩
      rw [if_neg (by simp [hg])]
      rcases Bool.eq_false_or_eq_true env.setgid_ok with h7 | h7
      case inr =>
        rw [if_pos h7]
        exact ⟨by decide, appendNeEmpty _ _ (by decide)⟩
      rw [if_neg (by simp [h7])]
      rcases Bool.eq_false_or_eq_true (badId uidArg) with hu | hu
      case inl =>
        rw [if_pos hu]
        exact ⟨by decide, appendNeEmpty _ _ (appendNeEmpty _ _ (by decide))⟩
      rw [if_neg (by simp [hu])]
      rcases Bool.eq_false_or_eq_true env.setuid_ok with h8 | h8
      case inr =>
        rw [if_pos h8]
        exact ⟨by decide, appendNeEmpty _ _ (by decide)⟩
      rw [if_neg (by simp [h8])]
      rcases Bool.eq_false_or_eq_true env.exec_ok with h9 | h9
      case inr =>
        rw [if_pos h9]
        exact ⟨by decide, by decide⟩
      rw [if_neg (by simp [h9])]
      exact trivial
  | [] => exact ⟨by decide, appendNeEmpty _ _ (appendNeEmpty _ _ (by decide))⟩
  | [a] => exact ⟨by decide, appendNeEmpty _ _ (appendNeEmpty _ _ (by decide))⟩
  | [a, b] => exact ⟨by decide, appendNeEmpty _ _ (appendNeEmpty _ _ (by decide))⟩
  | [a, b, c] => exact ⟨by decide, appendNeEmpty _ _ (appendNeEmpty _ _ (by decide))⟩
  | [a, b, c, d] => exact ⟨by decide, appendNeEmpty _ _ (appendNeEmpty _ _ (by decide))⟩

theorem mmr_no_setgid (pfx : String) (res : Mntent → Option Nat)
    (ents : List Mntent) (g : Int) :
    Event.setgid g ∉ (make_mounts_readonly pfx res ents).1 := by
  intro h
  have := mmr_trace_rank pfx res ents _ h
  simp [stageRank] at this

theorem mmr_no_setuid (pfx : String) (res : Mntent → Option Nat)
    (ents : List Mntent) (u : Int) :
    Event.setuid u ∉ (make_mounts_readonly pfx res ents).1 := by
  intro h
  have := mmr_trace_rank pfx res ents _ h
  simp [stageRank] at this

/-- C8: with fewer than four program arguments (argc < 5, counting the
program name), the helper exits immediately with status 1 and the usage
diagnostic, performing no privileged operation at all: the trace is
empty. -/
theorem usage_check (argv : List String) (env : SysEnv)
    (h : argv.length < 5) :
    main argv env = ([], Outcome.exited 1 (msgUsage (argv.headD ""))) := by
  match argv with
  | [] => rfl
  | [a] => rfl
  | [a, b] => rfl
  | [a, b, c] => rfl
  | [a, b, c, d] => rfl
  | a :: b :: c :: d :: e :: r =>
    simp only [List.length_cons] at h
    omega

theorem usage_check_witness :
    main ["helper"] envAllOk = ([], Outcome.exited 1 (msgUsage "helper")) :=
  usage_check ["helper"] envAllOk (by decide)

/-- C10: when the uid argument fails numeric validation while the gid
argument passed (and all earlier stages succeeded), the fatal diagnostic
is the `invalid numeric user id` message with the gid argument string
embedded in it — not the offending uid string (source line 159 passes
`argv[3]`). -/
theorem uid_diag_names_gid (a0 rootdir uidArg gidArg binary : String)
    (rest : List String) (env : SysEnv)
    (h1 : env.unshare_ok = true) (h2 : env.mount_private_ok = true)
    (h3 : env.bind_ok = true) (h4 : env.setmntent_ok = true)
    (hpass : (make_mounts_readonly rootdir env.remountRes env.mounts).2 = none)
    (h5 : env.chdir_ok = true) (h6 : env.chroot_ok = true)
    (hg : badId gidArg = false) (h7 : env.setgid_ok = true)
    (hu : badId uidArg = true) :
    (main (a0 :: rootdir :: uidArg :: gidArg :: binary :: rest) env).2
        = Outcome.exited 1 (msgBadUid gidArg)
      ∧ (uidArg ≠ gidArg → msgBadUid gidArg ≠ msgBadUid uidArg) := by
  constructor
  · simp only [main]
    rw [if_neg (by simp [h1]), if_neg (by simp [h2]), if_neg (by simp [h3]),
      if_neg (by simp [h4])]
    simp only [hpass]
    rw [if_neg (by simp [h5]), if_neg (by simp [h6]), if_neg (by simp [hg]),
      if_neg (by simp [h7]), if_pos hu]
  · intro hne heq
    apply hne
    have hd := congrArg String.data heq
    simp only [msgBadUid, String.data_append] at hd
    have hleft := List.append_cancel_right hd
    have hmid := List.append_cancel_left hleft
    exact (String.ext hmid).symm

theorem uid_diag_names_gid_witness :
    (main ["h", "/d", "5x", "1000", "/bin/sh"] envAllOk).2
        = Outcome.exited 1 (msgBadUid "1000")
      ∧ msgBadUid "1000" ≠ msgBadUid "5x" := by
  have h := uid_diag_names_gid "h" "/d" "5x" "1000" "/bin/sh" [] envAllOk
    rfl rfl rfl rfl rfl rfl rfl (by decide) rfl (by decide)
  exact ⟨h.1, h.2 (by decide)⟩

/-- C3 counterexample: with a malformed uid argument `5x` and a valid gid
argument `0`, the run does fail with the ArgumentError diagnostic, but an
identity change — `setgid(0)` — has already been attempted before the
failure, contradicting the claim that the failure occurs before any
identity change is attempted. -/
theorem invalid_uid_after_setgid_cex :
    Event.setgid 0 ∈ (main ["h", "/d", "5x", "0", "/bin/sh"] envAllOk).1
      ∧ (main ["h", "/d", "5x", "0", "/bin/sh"] envAllOk).2
          = Outcome.exited 1 (msgBadUid "0") := by decide

/-- The run reaches the identity-parsing stage of `main` (source line
151): every stage before it — namespace creation, make-private, bind
mount, mount enumeration with a fatal-error-free read-only pass, chdir
and chroot — succeeded. -/
def reachesIdStage (env : SysEnv) (rootdir : String) : Prop :=
  env.unshare_ok = true ∧ env.mount_private_ok = true ∧ env.bind_ok = true
    ∧ env.setmntent_ok = true
    ∧ (make_mounts_readonly rootdir env.remountRes env.mounts).2 = none
    ∧ env.chdir_ok = true ∧ env.chroot_ok = true

/-- C3 amended: a malformed gid argument makes the run fail before any
identity change is attempted (no setgid and no setuid in the trace, and
the run never reaches exec), and a malformed uid argument makes the run
fail before the user-id change is attempted (no setuid in the trace and
no exec); moreover, whenever the identity-parsing stage is reached, a
malformed gid yields exactly the ArgumentError exit with the
`invalid numeric group id` diagnostic, and a malformed uid (with a valid
gid and a successful setgid) yields exactly the ArgumentError exit with
the `invalid numeric user id` diagnostic — but only after the group-id
change has already been performed. -/
theorem invalid_id_no_identity_change (a0 rootdir uidArg gidArg binary : String)
    (rest : List String) (env : SysEnv) :
    ((badId gidArg = true →
        (∀ g, Event.setgid g
            ∉ (main (a0 :: rootdir :: uidArg :: gidArg :: binary :: rest) env).1)
      ∧ (∀ u, Event.setuid u
            ∉ (main (a0 :: rootdir :: uidArg :: gidArg :: binary :: rest) env).1)
      ∧ (∀ b, (main (a0 :: rootdir :: uidArg :: gidArg :: binary :: rest) env).2
            ≠ Outcome.execed b))
    ∧ (badId uidArg = true →
        (∀ u, Event.setuid u
            ∉ (main (a0 :: rootdir :: uidArg :: gidArg :: binary :: rest) env).1)
      ∧ (∀ b, (main (a0 :: rootdir :: uidArg :: gidArg :: binary :: rest) env).2
            ≠ Outcome.execed b)))
  ∧ (reachesIdStage env rootdir → badId gidArg = true →
      (main (a0 :: rootdir :: uidArg :: gidArg :: binary :: rest) env).2
        = Outcome.exited 1 (msgBadGid gidArg))
  ∧ (reachesIdStage env rootdir → env.setgid_ok = true →
      badId gidArg = false → badId uidArg = true →
      (main (a0 :: rootdir :: uidArg :: gidArg :: binary :: rest) env).2
          = Outcome.exited 1 (msgBadUid gidArg)
        ∧ Event.setgid (strtol gidArg.data).1
            ∈ (main (a0 :: rootdir :: uidArg :: gidArg :: binary :: rest) env).1) := by
  refine ⟨?_, ?_, ?_⟩
  · simp only [main]
    rcases Bool.eq_false_or_eq_true env.unshare_ok with h1 | h1
    case inr =>
      rw [if_pos h1]
      exact ⟨fun hbad => ⟨by simp [mmr_no_setgid], by simp [mmr_no_setuid], by simp⟩, fun hbad => ⟨by simp [mmr_no_setuid], by simp⟩⟩
    rw [if_neg (by simp [h1])]
    rcases Bool.eq_false_or_eq_true env.mount_private_ok with h2 | h2
    case inr =>
      rw [if_pos h2]
      exact ⟨fun hbad => ⟨by simp [mmr_no_setgid], by simp [mmr_no_setuid], by simp⟩, fun hbad => ⟨by simp [mmr_no_setuid], by simp⟩⟩
    rw [if_neg (by simp [h2])]
    rcases Bool.eq_false_or_eq_true env.bind_ok with h3 | h3
    case inr =>
      rw [if_pos h3]
      exact ⟨fun hbad => ⟨by simp [mmr_no_setgid], by simp [mmr_no_setuid], by simp⟩, fun hbad => ⟨by simp [mmr_no_setuid], by simp⟩⟩
    rw [if_neg (by simp [h3])]
    rcases Bool.eq_false_or_eq_true env.setmntent_ok with h4 | h4
    case inr =>
      rw [if_pos h4]
      exact ⟨fun hbad => ⟨by simp [mmr_no_setgid], by simp [mmr_no_setuid], by simp⟩, fun hbad => ⟨by simp [mmr_no_setuid], by simp⟩⟩
    rw [if_neg (by simp [h4])]
    cases hpass : (make_mounts_readonly rootdir env.remountRes env.mounts).2 with
    | some m =>
      simp only [hpass]
      exact ⟨fun hbad => ⟨by simp [mmr_no_setgid], by simp [mmr_no_setuid], by simp⟩, fun hbad => ⟨by simp [mmr_no_setuid], by simp⟩⟩
    | none =>
      simp only [hpass]
      rcases Bool.eq_false_or_eq_true env.chdir_ok with h5 | h5
      case inr =>
        rw [if_pos h5]
        exact ⟨fun hbad => ⟨by simp [mmr_no_setgid], by simp [mmr_no_setuid], by simp⟩, fun hbad => ⟨by simp [mmr_no_setuid], by simp⟩⟩
      rw [if_neg (by simp [h5])]
      rcases Bool.eq_false_or_eq_true env.chroot_ok with h6 | h6
      case inr =>
        rw [if_pos h6]
        exact ⟨fun hbad => ⟨by simp [mmr_no_setgid], by simp [mmr_no_setuid], by simp⟩, fun hbad => ⟨by simp [mmr_no_setuid], by simp⟩⟩
      rw [if_neg (by simp [h6])]
      rcases Bool.eq_false_or_eq_true (badId gidArg) with hg | hg
      case inl =>
        rw [if_pos hg]
        exact ⟨fun hbad => ⟨by simp [mmr_no_setgid], by simp [mmr_no_setuid], by simp⟩, fun hbad => ⟨by simp [mmr_no_setuid], by simp⟩⟩
      rw [if_neg (by simp [hg])]
      rcases Bool.eq_false_or_eq_true env.setgid_ok with h7 | h7
      case inr =>
        rw [if_pos h7]
        exact ⟨fun hbad => absurd hbad (by simp [hg]), fun hbad => ⟨by simp [mmr_no_setuid], by simp⟩⟩
      rw [if_neg (by simp [h7])]
      rcases Bool.eq_false_or_eq_true (badId uidArg) with hu | hu
      case inl =>
        rw [if_pos hu]
        exact ⟨fun hbad => absurd hbad (by simp [hg]), fun hbad => ⟨by simp [mmr_no_setuid], by simp⟩⟩
      rw [if_neg (by simp [hu])]
      rcases Bool.eq_false_or_eq_true env.setuid_ok with h8 | h8
      case inr =>
        rw [if_pos h8]
        exact ⟨fun hbad => absurd hbad (by simp [hg]), fun hbad => absurd hbad (by simp [hu])⟩
      rw [if_neg (by simp [h8])]
      rcases Bool.eq_false_or_eq_true env.exec_ok with h9 | h9
      case inr =>
        rw [if_pos h9]
        exact ⟨fun hbad => absurd hbad (by simp [hg]), fun hbad => absurd hbad (by simp [hu])⟩
      rw [if_neg (by simp [h9])]
      exact ⟨fun hbad => absurd hbad (by simp [hg]), fun hbad => absurd hbad (by simp [hu])⟩
  · rintro ⟨hr1, hr2, hr3, hr4, hrpass, hr5, hr6⟩ hbad
    simp only [main]
    rw [if_neg (by simp [hr1]), if_neg (by simp [hr2]), if_neg (by simp [hr3]),
      if_neg (by simp [hr4])]
    simp only [hrpass]
    rw [if_neg (by simp [hr5]), if_neg (by simp [hr6]), if_pos hbad]
  · rintro ⟨hr1, hr2, hr3, hr4, hrpass, hr5, hr6⟩ hr7 hgid hbad
    constructor
    · simp only [main]
      rw [if_neg (by simp [hr1]), if_neg (by simp [hr2]), if_neg (by simp [hr3]),
        if_neg (by simp [hr4])]
      simp only [hrpass]
      rw [if_neg (by simp [hr5]), if_neg (by simp [hr6]), if_neg (by simp [hgid]),
        if_neg (by simp [hr7]), if_pos hbad]
    · simp only [main]
      rw [if_neg (by simp [hr1]), if_neg (by simp [hr2]), if_neg (by simp [hr3]),
        if_neg (by simp [hr4])]
      simp only [hrpass]
      rw [if_neg (by simp [hr5]), if_neg (by simp [hr6]), if_neg (by simp [hgid]),
        if_neg (by simp [hr7]), if_pos hbad]
      simp

theorem invalid_id_no_identity_change_witness :
    Event.setuid 0 ∉ (main ["h", "/d", "5x", "0", "/bin/sh"] envAllOk).1
      ∧ (main ["h", "/d", "5x", "0", "/bin/sh"] envAllOk).2
          = Outcome.exited 1 (msgBadUid "0")
      ∧ Event.setgid 0 ∈ (main ["h", "/d", "5x", "0", "/bin/sh"] envAllOk).1
      ∧ (main ["h", "/d", "0", "x", "/bin/sh"] envAllOk).2
          = Outcome.exited 1 (msgBadGid "x") := by
  have h := invalid_id_no_identity_change "h" "/d" "5x" "0" "/bin/sh" [] envAllOk
  have hg := invalid_id_no_identity_change "h" "/d" "0" "x" "/bin/sh" [] envAllOk
  have hstage : reachesIdStage envAllOk "/d" := ⟨rfl, rfl, rfl, rfl, rfl, rfl, rfl⟩
  have huid := h.2.2 hstage rfl (by decide) (by decide)
  exact ⟨(h.1.2 (by decide)).1 0, huid.1, huid.2,
    hg.2.1 hstage (by decide)⟩

/-- C4 counterexample: the string `-5` has a leading sign, so the claim
says it must be rejected with a fatal ArgumentError; the code's `strtol`
check accepts it, the run proceeds to a successful exec, and `-5` is used
as the numeric id in the setuid call. -/
theorem id_validation_cex :
    badId "-5" = false
      ∧ (main ["h", "/d", "-5", "-5", "/bin/sh"] envAllOk).2
          = Outcome.execed "/bin/sh"
      ∧ Event.setuid (-5) ∈ (main ["h", "/d", "-5", "-5", "/bin/sh"] envAllOk).1 := by
  decide

theorem strtolDigits_complete (orig t : List Char) (neg : Bool)
    (horig : orig ≠ []) :
    ((strtolDigits orig t neg).2 = []
      ↔ (!t.isEmpty && t.all Char.isDigit) = true) := by
  simp only [strtolDigits]
  split
  next hds =>
    constructor
    · intro h
      exact absurd h horig
    · intro hRHS
      exfalso
      rcases t with _ | ⟨c, u⟩
      · simp at hRHS
      · rw [List.takeWhile_cons] at hds
        by_cases hc : Char.isDigit c
        · simp [hc] at hds
        · simp [hc] at hRHS
  next hds =>
    have ht : t ≠ [] := by
      rintro rfl
      simp at hds
    rw [List.dropWhile_eq_nil_iff]
    simp [List.all_eq_true, List.isEmpty_iff, ht]

theorem strtol_complete (l : List Char) (hl : l ≠ []) :
    ((strtol l).2 = [] ↔ strtolAccepts l = true) := by
  simp only [strtol, strtolAccepts]
  split
  next t heq =>
    rw [heq]
    simp only [List.head?_cons, List.tail_cons]
    rw [if_pos (by simp)]
    exact strtolDigits_complete l t true hl
  next t heq =>
    rw [heq]
    simp only [List.head?_cons, List.tail_cons]
    rw [if_pos (by simp)]
    exact strtolDigits_complete l t false hl
  next hne1 hne2 =>
    rw [if_neg ?_]
    · exact strtolDigits_complete l _ false hl
    · rcases hdw : l.dropWhile isspace with _ | ⟨c, u⟩
      · simp
      · simp only [List.head?_cons, Bool.or_eq_true, decide_eq_true_eq]
        rintro (hc | hc) <;> simp only [Option.some.injEq] at hc
        · exact hne1 u (by rw [hdw, hc])
        · exact hne2 u (by rw [hdw, hc])

/-- C4 amended: a uid/gid argument string passes the validation (and its
`strtol` value is used as the numeric id) if and only if, after optional
leading whitespace and an optional single `+` or `-` sign, it consists of
one or more decimal digits with nothing following; in particular strings
with a leading sign or leading whitespace are accepted, while empty
strings, digit-free strings and strings with trailing garbage are
rejected with the fatal ArgumentError diagnostic. -/
theorem id_validation_amended (s : String) :
    badId s = false ↔ strtolAccepts s.data = true := by
  by_cases hs : s.data = []
  · constructor
    · intro h
      exfalso
      simp [badId, hs] at h
    · intro h
      exfalso
      rw [strtolAccepts, hs] at h
      simp at h
  · have h := strtol_complete s.data hs
    rw [badId, Bool.or_eq_false_iff]
    constructor
    · intro hfalse
      apply h.mp
      have h2 : (strtol s.data).2.isEmpty = true := by simpa using hfalse.2
      exact List.isEmpty_iff.mp h2
    · intro hacc
      have h2 := h.mpr hacc
      refine ⟨by simp [List.isEmpty_iff, hs], ?_⟩
      simp [h2]

theorem id_validation_amended_witness :
    badId "007" = false ↔ strtolAccepts "007".data = true :=
  id_validation_amended "007"

/-- C5, amended: in a read-only pass that completes without a fatal
error, the remounts attempted are exactly (and in order) the entries of the
mount-table snapshot whose mount-point path starts textually with the
target-directory prefix and whose filesystem type is not exactly
`tmpfs`; all other entries are left untouched.  The plain prefix match
includes sibling paths such as `/tmp/sandboxXY` for prefix
`/tmp/sandboxX`. -/
theorem readonly_selection (pfx : String) (res : Mntent → Option Nat)
    (ents : List Mntent)
    (h : (make_mounts_readonly pfx res ents).2 = none) :
    remountDirs (make_mounts_readonly pfx res ents).1
      = (ents.filter
          (fun e => strStartsWith e.mnt_dir pfx && e.mnt_type != "tmpfs")).map
            Mntent.mnt_dir := by
  induction ents with
  | nil => simp [make_mounts_readonly, remountDirs]
  | cons ent rest ih =>
    rcases Bool.eq_false_or_eq_true (strStartsWith ent.mnt_dir pfx) with h1 | h1
    case inr =>
      simp only [make_mounts_readonly, h1] at h ⊢
      simp only [Bool.not_false, if_true] at h ⊢
      rw [List.filter_cons_of_neg (by simp [h1])]
      exact ih h
    case inl =>
      rcases Bool.eq_false_or_eq_true (ent.mnt_type == "tmpfs") with h2 | h2
      case inl =>
        have h2e : ent.mnt_type = "tmpfs" := by simpa using h2
        simp [make_mounts_readonly, h1, h2] at h ⊢
        rw [List.filter_cons_of_neg (by simp [h2e])]
        exact ih h
      case inr =>
        have h2e : ¬ent.mnt_type = "tmpfs" := by simpa using h2
        cases hres : res ent with
        | none =>
          simp [make_mounts_readonly, h1, h2, hres] at h ⊢
          rw [List.filter_cons_of_pos (by simp [h1, h2e])]
          simp only [remountDirs, List.map_cons]
          rw [ih h]
        | some e =>
          rcases Bool.eq_false_or_eq_true
              (e != EACCES && e != EINVAL && e != ESTALE && e != EPERM)
            with htol | htol
          case inl =>
            simp [make_mounts_readonly, h1, h2, hres, htol] at h
          case inr =>
            simp [make_mounts_readonly, h1, h2, hres, htol] at h ⊢
            rw [List.filter_cons_of_pos (by simp [h1, h2e])]
            simp only [remountDirs, List.map_cons]
            rw [ih h]

def entsW : List Mntent :=
  [⟨"/tmp/sandboxXY", "ext4", []⟩, ⟨"/tmp/sandboxX/tmp", "tmpfs", []⟩,
    ⟨"/other", "ext4", []⟩]

theorem readonly_selection_witness :
    remountDirs (make_mounts_readonly "/tmp/sandboxX" (fun _ => none) entsW).1
      = ["/tmp/sandboxXY"] := by
  have h := readonly_selection "/tmp/sandboxX" (fun _ => none) entsW (by rfl)
  rw [h]
  decide

def entsAbort : List Mntent :=
  [⟨"/s/a", "ext4", []⟩, ⟨"/s/b", "ext4", []⟩]

def resAbort : Mntent → Option Nat :=
  fun e => if e.mnt_dir == "/s/a" then some 5 else none

/-- C5 counterexample: the frozen claim's "attempted if selected"
direction fails in an aborting pass.  The snapshot `entsAbort` contains
the entry `/s/b`, whose mount point starts with the prefix `/s` and
whose type is not `tmpfs`, yet no remount of it is ever attempted: the
earlier selected entry `/s/a` fails with the non-tolerated errno 5
(EIO), so the process exits fatally mid-enumeration. -/
theorem readonly_selection_cex :
    (⟨"/s/b", "ext4", []⟩ : Mntent) ∈ entsAbort
      ∧ (strStartsWith "/s/b" "/s" && ("ext4" != "tmpfs")) = true
      ∧ "/s/b" ∉ remountDirs (make_mounts_readonly "/s" resAbort entsAbort).1
      ∧ (make_mounts_readonly "/s" resAbort entsAbort).2
          = some (msgRoFail "/s/a") := by
  decide

/-- C7: when the remount of a selected entry fails with errno `e`, the
failure is tolerated (the attempt is recorded and enumeration continues
with the remaining entries) if and only if `e` is EACCES, EINVAL, ESTALE
or EPERM; any other errno aborts the pass fatally right there, with the
`could not set mountpoint` diagnostic. -/
theorem remount_error_tolerance (pfx : String) (res : Mntent → Option Nat)
    (ent : Mntent) (rest : List Mntent) (e : Nat)
    (hsel : strStartsWith ent.mnt_dir pfx = true)
    (htype : (ent.mnt_type == "tmpfs") = false)
    (hres : res ent = some e) :
    if e = EACCES ∨ e = EINVAL ∨ e = ESTALE ∨ e = EPERM then
      (make_mounts_readonly pfx res (ent :: rest)).1
          = Event.remount ent.mnt_dir (mkflags ent)
              :: (make_mounts_readonly pfx res rest).1
        ∧ (make_mounts_readonly pfx res (ent :: rest)).2
            = (make_mounts_readonly pfx res rest).2
    else
      make_mounts_readonly pfx res (ent :: rest)
          = ([Event.remount ent.mnt_dir (mkflags ent)],
              some (msgRoFail ent.mnt_dir)) := by
  split
  next htol =>
    have hcond : (e != EACCES && e != EINVAL && e != ESTALE && e != EPERM)
        = false := by
      rcases htol with h | h | h | h <;> subst h <;> decide
    constructor
    · simp [make_mounts_readonly, hsel, htype, hres, hcond]
    · simp [make_mounts_readonly, hsel, htype, hres, hcond]
  next htol =>
    have hcond : (e != EACCES && e != EINVAL && e != ESTALE && e != EPERM)
        = true := by
      push_neg at htol
      obtain ⟨n1, n2, n3, n4⟩ := htol
      simp only [Bool.and_eq_true, bne_iff_ne]
      exact ⟨⟨⟨n1, n2⟩, n3⟩, n4⟩
    simp [make_mounts_readonly, hsel, htype, hres, hcond]

theorem remount_error_tolerance_witness :
    (make_mounts_readonly "/s" (fun _ => some 22) [⟨"/s", "ext4", []⟩]).1
        = [Event.remount "/s" (mkflags ⟨"/s", "ext4", []⟩)]
      ∧ (make_mounts_readonly "/s" (fun _ => some 22) [⟨"/s", "ext4", []⟩]).2
          = none := by
  have h := remount_error_tolerance "/s" (fun _ => some 22) ⟨"/s", "ext4", []⟩
    [] 22 rfl rfl rfl
  rw [if_pos (by decide)] at h
  exact ⟨h.1, h.2⟩

theorem mkflags_eq (ent : Mntent) :
    mkflags ent =
      MS_BIND ||| MS_REMOUNT ||| MS_RDONLY
        ||| (if hasmntopt ent "nodev" then MS_NODEV else 0)
        ||| (if hasmntopt ent "noexec" then MS_NOEXEC else 0)
        ||| (if hasmntopt ent "nosuid" then MS_NOSUID else 0)
        ||| (if hasmntopt ent "noatime" then MS_NOATIME else 0)
        ||| (if hasmntopt ent "nodiratime" then MS_NODIRATIME else 0)
        ||| (if hasmntopt ent "relatime" then MS_RELATIME else 0) := by
  simp only [mkflags]
  split_ifs <;> rfl

theorem pow2_inj (i k : Nat) : ((2 : Nat) ^ i = 2 ^ k) ↔ k = i :=
  ⟨fun h => (Nat.pow_right_injective (by norm_num) h).symm, fun h => by rw [h]⟩

theorem ite_pow_testBit (b : Bool) (k i : Nat) :
    (if b = true then 2 ^ k else (0 : Nat)).testBit i
      = (b && decide (k = i)) := by
  cases b
  · simp [Nat.zero_testBit]
  · simp [Nat.testBit_two_pow]

set_option maxHeartbeats 1000000 in
/-- C6: the flag word passed to every remount contains exactly the bind,
remount and read-only flags, plus each of nodev, noexec, nosuid, noatime,
nodiratime and relatime if and only if that option is present in the
entry's mount options; no other flag bit is set. -/
theorem remount_flags_exact (ent : Mntent) (i : Nat) :
    (mkflags ent).testBit i = true ↔
      (2 ^ i = MS_BIND ∨ 2 ^ i = MS_REMOUNT ∨ 2 ^ i = MS_RDONLY
        ∨ (2 ^ i = MS_NODEV ∧ hasmntopt ent "nodev" = true)
        ∨ (2 ^ i = MS_NOEXEC ∧ hasmntopt ent "noexec" = true)
        ∨ (2 ^ i = MS_NOSUID ∧ hasmntopt ent "nosuid" = true)
        ∨ (2 ^ i = MS_NOATIME ∧ hasmntopt ent "noatime" = true)
        ∨ (2 ^ i = MS_NODIRATIME ∧ hasmntopt ent "nodiratime" = true)
        ∨ (2 ^ i = MS_RELATIME ∧ hasmntopt ent "relatime" = true)) := by
  rw [mkflags_eq]
  have hBI : MS_BIND = 2 ^ 12 := by norm_num [MS_BIND]
  have hRE : MS_REMOUNT = 2 ^ 5 := by norm_num [MS_REMOUNT]
  have hRD : MS_RDONLY = 2 ^ 0 := by norm_num [MS_RDONLY]
  have hND : MS_NODEV = 2 ^ 2 := by norm_num [MS_NODEV]
  have hNE : MS_NOEXEC = 2 ^ 3 := by norm_num [MS_NOEXEC]
  have hNS : MS_NOSUID = 2 ^ 1 := by norm_num [MS_NOSUID]
  have hNA : MS_NOATIME = 2 ^ 10 := by norm_num [MS_NOATIME]
  have hNDA : MS_NODIRATIME = 2 ^ 11 := by norm_num [MS_NODIRATIME]
  have hRL : MS_RELATIME = 2 ^ 21 := by norm_num [MS_RELATIME]
  rw [hBI, hRE, hRD, hND, hNE, hNS, hNA, hNDA, hRL]
  simp only [Nat.testBit_lor, ite_pow_testBit, Nat.testBit_two_pow]
  simp only [Bool.or_eq_true, Bool.and_eq_true, decide_eq_true_eq, pow2_inj]
  tauto

theorem remount_flags_exact_witness :
    (mkflags ⟨"/d", "ext4", ["noexec"]⟩).testBit 3 = true :=
  (remount_flags_exact ⟨"/d", "ext4", ["noexec"]⟩ 3).mpr (by decide)

end NicosSandbox
